import Mathlib

/-!
Verification of the DevFlow ERP backend core against its specification.

The definitions below are a shallow embedding of the Python source:

* `paginate` embeds `app/utils/pagination.py` (`paginate`), with the
  database session replaced by an explicit list of matching rows and
  `math.ceil(total / page_size)` rendered as exact integer ceiling
  division (the two agree on every realistic count).
* `apply_sort` / `QueryBuilder` embed `app/utils/filters.py`.
* `updateFields` / `crudUpdate` embed `CRUDBase.update` from
  `app/crud/base.py`, with an ORM entity rendered as an association list
  from attribute names to values.
* The sprint, deployment, issue and team endpoint functions embed the
  corresponding route handlers in `app/api/v1/`, with the database
  rendered as explicit lists of rows and every stateful operation
  returning the post-state next to its result.

Python falsiness (`if not sort_by`, `if last_issue.key`, `notes or ...`)
is modelled explicitly where the source relies on it.
-/

namespace DevFlow

/-- Error signals raised by route handlers (`app/core/exceptions.py`),
plus the unhandled Python `AttributeError` that `CRUDBase.create` raises
when handed a plain `dict` instead of a Pydantic schema.  Messages are
modelled without the decorative quote characters of the f-strings. -/
inductive ApiError where
  | notFound (msg : String)
  | badRequest (msg : String)
  | attributeError (msg : String)
deriving DecidableEq, Repr

instance {ε α : Type} [DecidableEq ε] [DecidableEq α] : DecidableEq (Except ε α) :=
  fun x y =>
    match x, y with
    | .ok a, .ok b =>
      match decEq a b with
      | isTrue h => isTrue (by rw [h])
      | isFalse h => isFalse fun e => h (Except.ok.inj e)
    | .error a, .error b =>
      match decEq a b with
      | isTrue h => isTrue (by rw [h])
      | isFalse h => isFalse fun e => h (Except.error.inj e)
    | .ok _, .error _ => isFalse fun e => Except.noConfusion e
    | .error _, .ok _ => isFalse fun e => Except.noConfusion e

/-! ## Pagination engine (`app/utils/pagination.py`) -/

/-- Metadata record returned by `paginate` (`PaginationMeta` in
`app/schemas/common.py`). -/
structure PaginationMeta where
  page : Int
  page_size : Int
  total : Int
  total_pages : Int
  has_next : Bool
  has_prev : Bool
deriving DecidableEq, Repr

/-- `paginate(db, query, page, page_size, max_page_size)`.  The filtered
query is embedded as the list `rows` of its matching rows in query
order; `count()` over the same filtered query is its length, and
`offset/limit` are `drop/take`.  `if page_size > max_page_size` and
`if page < 1` are the source's clamps; `total_pages` follows
`ceil(total / page_size) if page_size > 0 else 0`. -/
def paginate {α : Type} (rows : List α) (page0 pageSize0 maxPageSize : Int) :
    List α × PaginationMeta :=
  let pageSize := if pageSize0 > maxPageSize then maxPageSize else pageSize0
  let page := if page0 < 1 then 1 else page0
  let total : Int := rows.length
  let totalPages : Int := if pageSize > 0 then (total + pageSize - 1) / pageSize else 0
  let hasNext := decide (page < totalPages)
  let hasPrev := decide (page > 1)
  let skip := (page - 1) * pageSize
  let items := (rows.drop skip.toNat).take pageSize.toNat
  (items, ⟨page, pageSize, total, totalPages, hasNext, hasPrev⟩)

/-- Splitting a list into `⌈length/P⌉` consecutive chunks of `P` elements
(`drop (i*P)` then `take P`) and concatenating them gives back the list. -/
lemma flatten_chunks {α : Type} (P : Nat) (hP : 0 < P) :
    ∀ (n : Nat) (l : List α), l.length = n →
      ((List.range ((l.length + P - 1) / P)).map fun i => (l.drop (i * P)).take P).flatten
        = l := by
  intro n
  induction n using Nat.strong_induction_on with
  | _ n ih =>
    intro l hl
    cases l with
    | nil =>
      have h0 : (0 + P - 1) / P = 0 := Nat.div_eq_of_lt (by omega)
      simp [h0]
    | cons a t =>
      subst hl
      have hdiv : ((a :: t).length + P - 1) / P = ((a :: t).length - 1) / P + 1 := by
        have h1 : (a :: t).length + P - 1 = ((a :: t).length - 1) + P := by
          simp only [List.length_cons]; omega
        rw [h1, Nat.add_div_right _ hP]
      rw [hdiv, List.range_succ_eq_map, List.map_cons, List.map_map, List.flatten_cons,
        Nat.zero_mul, List.drop_zero]
      have hstep : ((fun i => ((a :: t).drop (i * P)).take P) ∘ Nat.succ)
          = fun i => (((a :: t).drop P).drop (i * P)).take P := by
        funext i
        simp only [Function.comp_apply, List.drop_drop]
        have h2 : Nat.succ i * P = i * P + P := Nat.succ_mul i P
        rw [h2, Nat.add_comm]
      rw [hstep]
      have hlen : ((a :: t).drop P).length = (a :: t).length - P := by simp
      have hk : (((a :: t).drop P).length + P - 1) / P = ((a :: t).length - 1) / P := by
        rw [hlen]
        have hlc : (a :: t).length = t.length + 1 := by simp
        rw [hlc]
        rcases Nat.le_total P (t.length + 1) with h | h
        · have h3 : t.length + 1 - P + P - 1 = t.length + 1 - 1 := by omega
          rw [h3]
        · have h2 : t.length + 1 - P = 0 := by omega
          rw [h2, Nat.div_eq_of_lt (by omega), Nat.div_eq_of_lt (by omega)]
      have htail := ih ((a :: t).drop P).length (by simp; omega) ((a :: t).drop P) rfl
      rw [hk] at htail
      rw [htail]
      exact List.take_append_drop P (a :: t)

/-- The items `paginate` returns for (1-based) page `i+1` with effective
page size `P` are exactly the chunk `drop (i*P) |>.take P` of the row list. -/
lemma paginate_items_eq {α : Type} (rows : List α) (i P M : Nat)
    (hPM : P ≤ M) :
    (paginate rows ((i : Int) + 1) (P : Int) (M : Int)).1 = (rows.drop (i * P)).take P := by
  simp only [paginate]
  have hclampP : ¬ ((P : Int) > (M : Int)) := by exact_mod_cast Nat.not_lt.mpr hPM
  have hclampPage : ¬ ((i : Int) + 1 < 1) := by omega
  rw [if_neg hclampP, if_neg hclampPage]
  have hskip : (((i : Int) + 1 - 1) * (P : Int)).toNat = i * P := by
    have h1 : ((i : Int) + 1 - 1) * (P : Int) = ((i * P : Nat) : Int) := by push_cast; ring
    rw [h1, Int.toNat_ofNat]
  rw [hskip, Int.toNat_ofNat]

/-- C4: with `N` matching rows and an effective page size `P ≥ 1`,
`paginate` reports `total_pages = ⌈N / P⌉`, and concatenating the item
lists of pages `1 .. total_pages` returns exactly the row list: every
matching row appears exactly once, none repeated or omitted. -/
theorem paginate_reports_ceil_and_partitions {α : Type} (rows : List α) (P M : Nat)
    (hP : 1 ≤ P) (hPM : P ≤ M) :
    (paginate rows 1 (P : Int) (M : Int)).2.total_pages = (rows.length ⌈/⌉ P : Nat) ∧
    ((List.range (rows.length ⌈/⌉ P)).map
        fun i : Nat => (paginate rows ((i : Int) + 1) (P : Int) (M : Int)).1).flatten = rows := by
  rw [Nat.ceilDiv_eq_add_pred_div]
  constructor
  · simp only [paginate]
    have hclampP : ¬ ((P : Int) > (M : Int)) := by exact_mod_cast Nat.not_lt.mpr hPM
    have hpos : (P : Int) > 0 := by exact_mod_cast hP
    rw [if_neg hclampP, if_pos hpos]
    have hcast : ((rows.length : Int) + (P : Int) - 1) = ((rows.length + P - 1 : Nat) : Int) := by
      have h1 : 1 ≤ rows.length + P := by omega
      push_cast [Nat.cast_sub h1]
      ring
    rw [hcast, ← Int.ofNat_ediv]
  · have hmap := List.map_congr_left
      (l := List.range ((rows.length + P - 1) / P))
      (fun i _ => paginate_items_eq rows i P M hPM)
    rw [hmap]
    exact flatten_chunks P hP rows.length rows rfl

/-- Witness for C4 at `rows = [10, 20, 30]`, `P = 2`, `M = 100`. -/
theorem paginate_reports_ceil_and_partitions_witness :
    (1 ≤ 2 ∧ 2 ≤ 100) ∧
      ((paginate [10, 20, 30] 1 2 100).2.total_pages = (([10, 20, 30] : List Nat).length ⌈/⌉ 2 : Nat) ∧
        ((List.range (([10, 20, 30] : List Nat).length ⌈/⌉ 2)).map
            fun i : Nat => (paginate ([10, 20, 30] : List Nat) ((i : Int) + 1) 2 100).1).flatten
          = [10, 20, 30]) :=
  ⟨⟨by decide, by decide⟩,
    paginate_reports_ceil_and_partitions [10, 20, 30] 2 100 (by decide) (by decide)⟩

/-- C6: for every row list and every `page`/`page_size` input (with the
page sizes positive so that `ceil(total / page_size)` is defined, as at
every call site), `paginate` clamps `page_size` above by `max_page_size`
and `page` below by `1`, reports `total_pages = ⌈total / page_size⌉`,
`has_next = page < total_pages`, `has_prev = page > 1`, takes the items
with offset `(page - 1) * page_size` and limit `page_size`, and returns
an empty item list (not an error) whenever `page` exceeds `total_pages`. -/
theorem paginate_meta_spec {α : Type} (rows : List α) (page0 pageSize0 M : Int)
    (hps : 1 ≤ pageSize0) (hM : 1 ≤ M) :
    (paginate rows page0 pageSize0 M).2.page_size
        = (if pageSize0 > M then M else pageSize0) ∧
    (paginate rows page0 pageSize0 M).2.page = (if page0 < 1 then 1 else page0) ∧
    (paginate rows page0 pageSize0 M).2.total = rows.length ∧
    (paginate rows page0 pageSize0 M).2.total_pages
        = ((paginate rows page0 pageSize0 M).2.total
            + (paginate rows page0 pageSize0 M).2.page_size - 1)
          / (paginate rows page0 pageSize0 M).2.page_size ∧
    (paginate rows page0 pageSize0 M).2.has_next
        = decide ((paginate rows page0 pageSize0 M).2.page
            < (paginate rows page0 pageSize0 M).2.total_pages) ∧
    (paginate rows page0 pageSize0 M).2.has_prev
        = decide ((paginate rows page0 pageSize0 M).2.page > 1) ∧
    (paginate rows page0 pageSize0 M).1
        = (rows.drop (((paginate rows page0 pageSize0 M).2.page - 1)
              * (paginate rows page0 pageSize0 M).2.page_size).toNat).take
            (paginate rows page0 pageSize0 M).2.page_size.toNat ∧
    ((paginate rows page0 pageSize0 M).2.total_pages
        < (paginate rows page0 pageSize0 M).2.page →
      (paginate rows page0 pageSize0 M).1 = []) := by
  have hpsEff : (1 : Int) ≤ (if pageSize0 > M then M else pageSize0) := by
    split <;> omega
  have hpos : (0 : Int) < (if pageSize0 > M then M else pageSize0) := by omega
  refine ⟨rfl, rfl, rfl, ?_, rfl, rfl, rfl, ?_⟩
  · simp only [paginate, if_pos hpos]
  · intro hover
    simp only [paginate] at hover ⊢
    rw [if_pos hpos] at hover
    set ps : Int := if pageSize0 > M then M else pageSize0 with hps_def
    set pg : Int := if page0 < 1 then 1 else page0 with hpg_def
    have hpg1 : (1 : Int) ≤ pg := by rw [hpg_def]; split <;> omega
    set T : Int := (rows.length : Int) with hT_def
    have hT0 : (0 : Int) ≤ T := by rw [hT_def]; exact_mod_cast Nat.zero_le _
    -- `total_pages * ps ≥ T`: the defining property of the ceiling.
    have hmod := Int.ediv_add_emod (T + ps - 1) ps
    have hmlt : (T + ps - 1) % ps < ps := Int.emod_lt_of_pos _ hpos
    have hm0 : 0 ≤ (T + ps - 1) % ps := Int.emod_nonneg _ (by omega)
    have hcomm : ps * ((T + ps - 1) / ps) = ((T + ps - 1) / ps) * ps := mul_comm _ _
    have hceil : T ≤ ((T + ps - 1) / ps) * ps := by linarith
    -- `page > total_pages` pushes the offset past the end of the rows.
    have h2 : ((T + ps - 1) / ps) * ps ≤ (pg - 1) * ps :=
      mul_le_mul_of_nonneg_right (by omega) (by omega)
    have hskip : T ≤ (pg - 1) * ps := le_trans hceil h2
    have hnn : (0 : Int) ≤ (pg - 1) * ps := mul_nonneg (by omega) (by omega)
    rw [hT_def] at hskip
    have hlen : rows.length ≤ ((pg - 1) * ps).toNat := (Int.le_toNat hnn).mpr hskip
    rw [List.drop_eq_nil_iff.mpr hlen, List.take_nil]

/-- Witness for C6 at `rows = [10, 20, 30]`, `page = 9`, `page_size = 2`,
`max_page_size = 100` (a page beyond `total_pages = 2`). -/
theorem paginate_meta_spec_witness :
    ((1 : Int) ≤ 2 ∧ (1 : Int) ≤ 100) ∧
      (paginate ([10, 20, 30] : List Nat) 9 2 100).2.total_pages
          < (paginate ([10, 20, 30] : List Nat) 9 2 100).2.page ∧
      (paginate ([10, 20, 30] : List Nat) 9 2 100).1 = [] :=
  ⟨⟨by decide, by decide⟩, by decide,
    (paginate_meta_spec [10, 20, 30] 9 2 100 (by decide) (by decide)).2.2.2.2.2.2.2
      (by decide)⟩

/-! ## Filter and sort utilities (`app/utils/filters.py`) -/

/-- `SortOrder` enum (`asc` / `desc`). -/
inductive SortOrder where
  | asc
  | desc
deriving DecidableEq, Repr

/-- The `order` argument of `apply_sort` is typed `SortOrder | str`. -/
inductive OrderArg where
  | enum (o : SortOrder)
  | str (s : String)
deriving DecidableEq, Repr

/-- `SortOrder(order.lower())`: converting a raw string raises
`ValueError` unless it is (case-insensitively) `asc` or `desc`. -/
def sortOrderOfArg : OrderArg → Except String SortOrder
  | .enum o => .ok o
  | .str s =>
    if s.toLower == "asc" then .ok SortOrder.asc
    else if s.toLower == "desc" then .ok SortOrder.desc
    else .error "ValueError: not a valid SortOrder"

/-- A SQLAlchemy `Select` query, embedded as its list of opaque WHERE
clauses plus its ORDER BY criteria in application order. -/
structure QueryRep where
  whereClauses : List String
  orderByClauses : List (String × SortOrder)
deriving DecidableEq, Repr

/-- `apply_sort(query, model, sort_by, order)`.  A model class is
embedded as the list of its attribute names (`hasattr` is membership).
`if not sort_by or not hasattr(model, sort_by): return query` is the
silent no-op branch; only afterwards is the raw `order` string
converted (which can raise `ValueError`), and the ordering appended. -/
def apply_sort (query : QueryRep) (modelAttrs : List String)
    (sort_by : Option String) (order : OrderArg) : Except String QueryRep :=
  match sort_by with
  | none => .ok query
  | some f =>
    if f == "" then .ok query
    else if !(modelAttrs.contains f) then .ok query
    else
      match sortOrderOfArg order with
      | .error e => .error e
      | .ok o => .ok ⟨query.whereClauses, query.orderByClauses ++ [(f, o)]⟩

/-- `QueryBuilder`: holds the query under construction and its model. -/
structure QueryBuilderRep where
  query : QueryRep
  modelAttrs : List String
deriving DecidableEq, Repr

/-- `QueryBuilder.sort`: delegates to `apply_sort` and stores the
resulting query back on the builder. -/
def QueryBuilderRep.sort (b : QueryBuilderRep) (sort_by : Option String)
    (order : OrderArg) : Except String QueryBuilderRep :=
  match apply_sort b.query b.modelAttrs sort_by order with
  | .ok q => .ok ⟨q, b.modelAttrs⟩
  | .error e => .error e

/-- C8: sorting by a field name that is not an attribute of the model is
an identity on the query for both `apply_sort` and `QueryBuilder.sort`:
the query is returned unchanged and no error is ever raised, whatever
the order argument. -/
theorem sort_unknown_field_noop (b : QueryBuilderRep) (f : String) (order : OrderArg)
    (h : b.modelAttrs.contains f = false) :
    apply_sort b.query b.modelAttrs (some f) order = .ok b.query ∧
    b.sort (some f) order = .ok b := by
  have happ : apply_sort b.query b.modelAttrs (some f) order = .ok b.query := by
    simp only [apply_sort, h]
    split <;> simp
  refine ⟨happ, ?_⟩
  simp only [QueryBuilderRep.sort, happ]

/-- Witness for C8: sorting by the unknown field `no_such_column`. -/
theorem sort_unknown_field_noop_witness :
    (QueryBuilderRep.mk (QueryRep.mk ["status = active"] []) ["id", "name", "status"]).modelAttrs.contains
        "no_such_column" = false ∧
    apply_sort (QueryRep.mk ["status = active"] []) ["id", "name", "status"]
        (some "no_such_column") (OrderArg.str "DESC")
      = .ok (QueryRep.mk ["status = active"] []) ∧
    (QueryBuilderRep.mk (QueryRep.mk ["status = active"] []) ["id", "name", "status"]).sort
        (some "no_such_column") (OrderArg.str "DESC")
      = .ok (QueryBuilderRep.mk (QueryRep.mk ["status = active"] []) ["id", "name", "status"]) :=
  ⟨by decide,
    (sort_unknown_field_noop
        (QueryBuilderRep.mk (QueryRep.mk ["status = active"] []) ["id", "name", "status"])
        "no_such_column" (OrderArg.str "DESC") (by decide)).1,
    (sort_unknown_field_noop
        (QueryBuilderRep.mk (QueryRep.mk ["status = active"] []) ["id", "name", "status"])
        "no_such_column" (OrderArg.str "DESC") (by decide)).2⟩

/-! ## Generic repository update (`CRUDBase.update`, `app/crud/base.py`) -/

/-- A Python attribute value; `pynull` is `None`. -/
inductive PyValue where
  | pynull
  | pystr (s : String)
  | pyint (n : Int)
  | pybool (b : Bool)
deriving DecidableEq, Repr

/-- An ORM entity, embedded as the association list from its attribute
names to their current values (first binding wins, as attribute lookup
is unambiguous). -/
abbrev Entity := List (String × PyValue)

/-- `hasattr(db_obj, field)`. -/
def hasattr (obj : Entity) (f : String) : Bool :=
  obj.any fun kv => kv.1 == f

/-- `setattr(db_obj, field, value)`: overwrite the named attribute,
leaving the attribute set itself unchanged. -/
def setattr (obj : Entity) (f : String) (v : PyValue) : Entity :=
  obj.map fun kv => if kv.1 == f then (kv.1, v) else kv

/-- `getattr(db_obj, field)` as a partial lookup. -/
def getattrField (obj : Entity) (f : String) : Option PyValue :=
  (obj.find? fun kv => kv.1 == f).map Prod.snd

/-- The update loop of `CRUDBase.update`:
`for field, value in update_data.items(): if hasattr(db_obj, field):
setattr(db_obj, field, value)`. -/
def updateFields (obj : Entity) : List (String × PyValue) → Entity
  | [] => obj
  | (f, v) :: rest =>
    updateFields (if hasattr obj f then setattr obj f v else obj) rest

/-- The `obj_in` argument of `CRUDBase.update`: either a plain dict, or
a Pydantic schema whose `model_dump(exclude_unset=True)` yields exactly
the explicitly-set fields (an explicit `None` is present as `pynull`,
an omitted field is absent). -/
inductive UpdateIn where
  | dictIn (data : List (String × PyValue))
  | schemaIn (setFields : List (String × PyValue))
deriving DecidableEq, Repr

/-- `update_data = obj_in if isinstance(obj_in, dict) else
obj_in.model_dump(exclude_unset=True)`. -/
def updateData : UpdateIn → List (String × PyValue)
  | .dictIn d => d
  | .schemaIn s => s

/-- `CRUDBase.update(db, db_obj, obj_in)` (persistence commits aside,
which change no attribute). -/
def crudUpdate (obj : Entity) (objIn : UpdateIn) : Entity :=
  updateFields obj (updateData objIn)

lemma hasattr_setattr (obj : Entity) (g : String) (w : PyValue) (f : String) :
    hasattr (setattr obj g w) f = hasattr obj f := by
  induction obj with
  | nil => rfl
  | cons kv rest ih =>
    obtain ⟨k, v⟩ := kv
    simp only [setattr, hasattr, List.map_cons, List.any_cons] at ih ⊢
    by_cases h : (k == g) = true
    · rw [if_pos h, ih]
    · rw [if_neg h, ih]

lemma getattr_setattr_ne (obj : Entity) (g : String) (w : PyValue) (f : String)
    (h : g ≠ f) : getattrField (setattr obj g w) f = getattrField obj f := by
  induction obj with
  | nil => rfl
  | cons kv rest ih =>
    obtain ⟨k, v⟩ := kv
    simp only [setattr, getattrField, List.map_cons] at ih ⊢
    by_cases hkg : (k == g) = true
    · rw [if_pos hkg]
      have hk : k = g := eq_of_beq hkg
      have hne : ¬ ((k == f) = true) := by rw [hk]; simpa using h
      rw [List.find?_cons_of_neg
            (p := fun kv : String × PyValue => kv.1 == f) (a := (k, w)) _ hne,
          List.find?_cons_of_neg
            (p := fun kv : String × PyValue => kv.1 == f) (a := (k, v)) _ hne]
      exact ih
    · rw [if_neg hkg]
      by_cases hkf : (k == f) = true
      · rw [List.find?_cons_of_pos
              (p := fun kv : String × PyValue => kv.1 == f) (a := (k, v)) _ hkf,
            List.find?_cons_of_pos
              (p := fun kv : String × PyValue => kv.1 == f) (a := (k, v)) _ hkf]
      · rw [List.find?_cons_of_neg
              (p := fun kv : String × PyValue => kv.1 == f) (a := (k, v)) _ hkf,
            List.find?_cons_of_neg
              (p := fun kv : String × PyValue => kv.1 == f) (a := (k, v)) _ hkf]
        exact ih

lemma getattr_setattr_self (obj : Entity) (f : String) (u : PyValue) :
    hasattr obj f = true → getattrField (setattr obj f u) f = some u := by
  induction obj with
  | nil => intro h; exact absurd h (by simp [hasattr])
  | cons kv rest ih =>
    obtain ⟨k, v⟩ := kv
    intro h
    simp only [setattr, getattrField, List.map_cons] at ih ⊢
    by_cases hkf : (k == f) = true
    · rw [if_pos hkf, List.find?_cons_of_pos
          (p := fun kv : String × PyValue => kv.1 == f) (a := (k, u)) _ hkf]
      rfl
    · have hrest : hasattr rest f = true := by
        simp only [hasattr, List.any_cons] at h
        rcases (Bool.or_eq_true _ _).mp h with h3 | h3
        · exact absurd h3 hkf
        · exact h3
      rw [if_neg hkf, List.find?_cons_of_neg
          (p := fun kv : String × PyValue => kv.1 == f) (a := (k, v)) _ hkf]
      exact ih hrest

lemma updateFields_not_mentioned (data : List (String × PyValue)) :
    ∀ (obj : Entity) (f : String), f ∉ data.map Prod.fst →
      getattrField (updateFields obj data) f = getattrField obj f := by
  induction data with
  | nil => intro obj f _; rfl
  | cons kv rest ih =>
    obtain ⟨k, v⟩ := kv
    intro obj f h
    simp only [List.map_cons, List.mem_cons, not_or] at h
    obtain ⟨hne, hrest⟩ := h
    simp only [updateFields]
    rw [ih _ f hrest]
    by_cases hh : hasattr obj k
    · rw [if_pos hh, getattr_setattr_ne obj k v f fun e => hne e.symm]
    · rw [if_neg hh]

lemma updateFields_applied (data : List (String × PyValue)) :
    ∀ (obj : Entity) (f : String) (v : PyValue), (data.map Prod.fst).Nodup →
      (f, v) ∈ data → hasattr obj f = true →
      getattrField (updateFields obj data) f = some v := by
  induction data with
  | nil => intro obj f v _ h; cases h
  | cons kv rest ih =>
    obtain ⟨k, w⟩ := kv
    intro obj f v hnd hmem hattr
    simp only [List.map_cons, List.nodup_cons] at hnd
    obtain ⟨hknotin, hndrest⟩ := hnd
    rcases List.mem_cons.mp hmem with heq | hmemrest
    · have hfk : f = k := congrArg Prod.fst heq
      have hvw : v = w := congrArg Prod.snd heq
      subst hfk
      subst hvw
      simp only [updateFields, hattr, if_true]
      rw [updateFields_not_mentioned rest _ f hknotin]
      exact getattr_setattr_self obj f v hattr
    · have hkf : k ≠ f := by
        intro e
        apply hknotin
        rw [e]
        exact List.mem_map.mpr ⟨(f, v), hmemrest, rfl⟩
      simp only [updateFields]
      by_cases hh : hasattr obj k
      · rw [if_pos hh]
        exact ih _ f v hndrest hmemrest (by rw [hasattr_setattr]; exact hattr)
      · rw [if_neg hh]
        exact ih _ f v hndrest hmemrest hattr

/-- C7: the generic update changes exactly the fields present in the
update input.  A field absent from the input keeps its pre-update value
(so an omitted field is untouched), while every field present in the
input — including one explicitly set to `None` — is applied, preserving
the unset-versus-null distinction of `model_dump(exclude_unset=True)`. -/
theorem crud_update_partial_semantics (obj : Entity) (objIn : UpdateIn) :
    (∀ f, f ∉ (updateData objIn).map Prod.fst →
      getattrField (crudUpdate obj objIn) f = getattrField obj f) ∧
    (∀ f v, ((updateData objIn).map Prod.fst).Nodup → (f, v) ∈ updateData objIn →
      hasattr obj f = true → getattrField (crudUpdate obj objIn) f = some v) :=
  ⟨fun f h => updateFields_not_mentioned (updateData objIn) obj f h,
    fun f v hnd hmem hattr =>
      updateFields_applied (updateData objIn) obj f v hnd hmem hattr⟩

/-- Witness for C7: updating an issue-like entity with the partial input
`{status: "done", description: None}` applies both fields (the explicit
null included) and leaves `title` untouched. -/
theorem crud_update_partial_semantics_witness :
    ("title" ∉ (updateData (UpdateIn.schemaIn
        [("status", PyValue.pystr "done"), ("description", PyValue.pynull)])).map Prod.fst) ∧
    getattrField
        (crudUpdate
          [("id", PyValue.pyint 1), ("title", PyValue.pystr "Implement API"),
            ("status", PyValue.pystr "todo"), ("description", PyValue.pystr "old")]
          (UpdateIn.schemaIn
            [("status", PyValue.pystr "done"), ("description", PyValue.pynull)]))
        "title" = some (PyValue.pystr "Implement API") ∧
    getattrField
        (crudUpdate
          [("id", PyValue.pyint 1), ("title", PyValue.pystr "Implement API"),
            ("status", PyValue.pystr "todo"), ("description", PyValue.pystr "old")]
          (UpdateIn.schemaIn
            [("status", PyValue.pystr "done"), ("description", PyValue.pynull)]))
        "status" = some (PyValue.pystr "done") ∧
    getattrField
        (crudUpdate
          [("id", PyValue.pyint 1), ("title", PyValue.pystr "Implement API"),
            ("status", PyValue.pystr "todo"), ("description", PyValue.pystr "old")]
          (UpdateIn.schemaIn
            [("status", PyValue.pystr "done"), ("description", PyValue.pynull)]))
        "description" = some PyValue.pynull :=
  ⟨by decide,
    (crud_update_partial_semantics _ _).1 "title" (by decide),
    (crud_update_partial_semantics _ _).2 "status" (PyValue.pystr "done")
      (by decide) (by decide) (by decide),
    (crud_update_partial_semantics _ _).2 "description" PyValue.pynull
      (by decide) (by decide) (by decide)⟩

lemma updateFields_filter_known (data : List (String × PyValue)) :
    ∀ (obj : Entity),
      updateFields obj (data.filter fun kv => hasattr obj kv.1) = updateFields obj data := by
  induction data with
  | nil => intro _; rfl
  | cons kv rest ih =>
    obtain ⟨k, v⟩ := kv
    intro obj
    by_cases hh : hasattr obj k = true
    · rw [List.filter_cons_of_pos
          (p := fun kv : String × PyValue => hasattr obj kv.1) (a := (k, v)) hh]
      show updateFields (if hasattr obj k then setattr obj k v else obj)
            (rest.filter fun kv => hasattr obj kv.1)
          = updateFields (if hasattr obj k then setattr obj k v else obj) rest
      rw [if_pos hh]
      have hpred : (fun kv : String × PyValue => hasattr obj kv.1)
          = fun kv => hasattr (setattr obj k v) kv.1 := by
        funext kv; rw [hasattr_setattr]
      rw [hpred]
      exact ih (setattr obj k v)
    · rw [List.filter_cons_of_neg
          (p := fun kv : String × PyValue => hasattr obj kv.1) (a := (k, v)) hh]
      show updateFields obj (rest.filter fun kv => hasattr obj kv.1)
          = updateFields (if hasattr obj k then setattr obj k v else obj) rest
      rw [if_neg hh]
      exact ih obj

/-- C10: the generic update applies a key/value pair only when the key
names an existing attribute of the entity; keys naming no attribute are
silently skipped — filtering them out of the input changes nothing, and
an input consisting only of unknown keys leaves the entity untouched. -/
theorem crud_update_skips_unknown_keys (obj : Entity) (objIn : UpdateIn) :
    crudUpdate obj objIn
        = updateFields obj ((updateData objIn).filter fun kv => hasattr obj kv.1) ∧
    ((∀ kv ∈ updateData objIn, hasattr obj kv.1 = false) → crudUpdate obj objIn = obj) := by
  constructor
  · exact (updateFields_filter_known (updateData objIn) obj).symm
  · intro hall
    have hnone : (updateData objIn).filter (fun kv => hasattr obj kv.1) = [] := by
      apply List.filter_eq_nil_iff.mpr
      intro kv hkv
      simp [hall kv hkv]
    have hthis := updateFields_filter_known (updateData objIn) obj
    rw [hnone] at hthis
    exact hthis.symm

/-- Witness for C10: an update whose dict carries only the unknown key
`no_such_field` leaves the entity unchanged. -/
theorem crud_update_skips_unknown_keys_witness :
    (∀ kv ∈ updateData (UpdateIn.dictIn [("no_such_field", PyValue.pyint 3)]),
      hasattr [("id", PyValue.pyint 1), ("status", PyValue.pystr "todo")] kv.1 = false) ∧
    crudUpdate [("id", PyValue.pyint 1), ("status", PyValue.pystr "todo")]
        (UpdateIn.dictIn [("no_such_field", PyValue.pyint 3)])
      = [("id", PyValue.pyint 1), ("status", PyValue.pystr "todo")] :=
  ⟨by decide,
    (crud_update_skips_unknown_keys
        [("id", PyValue.pyint 1), ("status", PyValue.pystr "todo")]
        (UpdateIn.dictIn [("no_such_field", PyValue.pyint 3)])).2 (by decide)⟩

/-! ## Sprint state machine (`app/api/v1/sprints.py`, `app/crud/sprint.py`) -/

/-- `SprintStatus` enum (`app/models/sprint.py`). -/
inductive SprintStatus where
  | planned
  | active
  | completed
  | cancelled
deriving DecidableEq, Repr

/-- A row of the `sprints` table (the fields the state machine reads). -/
structure SprintRec where
  id : Nat
  project_id : Nat
  name : String
  status : SprintStatus
deriving DecidableEq, Repr

/-- The sprint table in row order. -/
abbrev SprintDB := List SprintRec

/-- `CRUDBase.get`: `filter(Sprint.id == id).first()`. -/
def getSprint (db : SprintDB) (sid : Nat) : Option SprintRec :=
  db.find? fun s => s.id == sid

/-- `CRUDSprint.get_active_sprint`: first sprint of the project whose
status is `active`. -/
def getActiveSprint (db : SprintDB) (pid : Nat) : Option SprintRec :=
  db.find? fun s => s.project_id == pid && s.status == SprintStatus.active

/-- In-place `sprint.status = st` on the row with the given id. -/
def setSprintStatus (db : SprintDB) (sid : Nat) (st : SprintStatus) : SprintDB :=
  db.map fun s => if s.id == sid then SprintRec.mk s.id s.project_id s.name st else s

/-- `CRUDSprint.start_sprint`: fetch, set `status = ACTIVE`, commit,
return the refreshed row (`None` when the id is absent). -/
def crudStartSprint (db : SprintDB) (sid : Nat) : SprintDB × Option SprintRec :=
  match getSprint db sid with
  | none => (db, none)
  | some s =>
    (setSprintStatus db sid SprintStatus.active,
      some (SprintRec.mk s.id s.project_id s.name SprintStatus.active))

/-- Message of the conflict error raised when a project already has an
active sprint (quote characters of the f-string elided). -/
def activeConflictMsg (name : String) : String :=
  "Project already has an active sprint: " ++ name

/-- `POST /sprints/{id}/start` (`start_sprint` handler): 404 when
absent; conflict when another sprint of the project is active; else
delegate to `CRUDSprint.start_sprint`.  The post-state is returned next
to the response. -/
def startSprintEndpoint (db : SprintDB) (sid : Nat) :
    SprintDB × Except ApiError (Option SprintRec) :=
  match getSprint db sid with
  | none => (db, .error (.notFound ("Sprint " ++ toString sid ++ " not found")))
  | some sprint =>
    match getActiveSprint db sprint.project_id with
    | some a =>
      if a.id ≠ sid then
        (db, .error (.badRequest (activeConflictMsg a.name)))
      else
        let r := crudStartSprint db sid
        (r.1, .ok r.2)
    | none =>
      let r := crudStartSprint db sid
      (r.1, .ok r.2)

/-- `PATCH /sprints/{id}/status` (`update_sprint_status` handler): 404
when absent; when the target status is `ACTIVE`, conflict if another
sprint of the project is active; else set the status and commit. -/
def updateSprintStatusEndpoint (db : SprintDB) (sid : Nat) (st : SprintStatus) :
    SprintDB × Except ApiError SprintRec :=
  match getSprint db sid with
  | none => (db, .error (.notFound ("Sprint " ++ toString sid ++ " not found")))
  | some sprint =>
    if st = SprintStatus.active then
      match getActiveSprint db sprint.project_id with
      | some a =>
        if a.id ≠ sid then
          (db, .error (.badRequest (activeConflictMsg a.name)))
        else
          (setSprintStatus db sid st,
            SprintRec.mk sprint.id sprint.project_id sprint.name st |> .ok)
      | none =>
        (setSprintStatus db sid st,
          SprintRec.mk sprint.id sprint.project_id sprint.name st |> .ok)
    else
      (setSprintStatus db sid st,
        SprintRec.mk sprint.id sprint.project_id sprint.name st |> .ok)

/-- C1: when some other sprint of the target's project is active (and
the target is not itself among the project's active sprints), both the
start endpoint and a status update to `active` fail with the conflict
bad-request and leave the sprint table — hence both sprints'
statuses — unchanged. -/
theorem single_active_sprint_guard (db : SprintDB) (sid : Nat) (s t : SprintRec)
    (hs : getSprint db sid = some s)
    (ht : t ∈ db) (htp : t.project_id = s.project_id)
    (hta : t.status = SprintStatus.active)
    (hall : ∀ u ∈ db, u.project_id = s.project_id → u.status = SprintStatus.active →
      u.id ≠ sid) :
    ∃ a, getActiveSprint db s.project_id = some a ∧ a.id ≠ sid ∧
      startSprintEndpoint db sid
          = (db, .error (.badRequest (activeConflictMsg a.name))) ∧
      updateSprintStatusEndpoint db sid SprintStatus.active
          = (db, .error (.badRequest (activeConflictMsg a.name))) := by
  have hfound : (db.find? fun u =>
      u.project_id == s.project_id && u.status == SprintStatus.active).isSome = true := by
    apply List.find?_isSome.mpr
    refine ⟨t, ht, ?_⟩
    rw [htp] at *
    simp [htp, hta]
  obtain ⟨a, ha⟩ := Option.isSome_iff_exists.mp hfound
  have haprop := List.find?_some ha
  have hamem := List.mem_of_find?_eq_some ha
  have hap : a.project_id = s.project_id := by
    have := (Bool.and_eq_true _ _).mp haprop
    exact eq_of_beq this.1
  have haa : a.status = SprintStatus.active := by
    have := (Bool.and_eq_true _ _).mp haprop
    have h2 := this.2
    exact eq_of_beq h2
  have hane : a.id ≠ sid := hall a hamem hap haa
  refine ⟨a, ha, hane, ?_, ?_⟩
  · simp only [startSprintEndpoint, hs, getActiveSprint, ha, if_pos hane]
  · simp only [updateSprintStatusEndpoint, hs, getActiveSprint, ha, if_pos rfl,
      if_pos hane, eq_self_iff_true, if_true]

/-- Witness for C1: sprint 1 of project 1 is active; starting or
activating sprint 2 fails with the conflict and changes nothing. -/
theorem single_active_sprint_guard_witness :
    (getSprint
        [SprintRec.mk 1 1 "Sprint 1" SprintStatus.active,
          SprintRec.mk 2 1 "Sprint 2" SprintStatus.planned] 2
      = some (SprintRec.mk 2 1 "Sprint 2" SprintStatus.planned)) ∧
    (∃ a, getActiveSprint
            [SprintRec.mk 1 1 "Sprint 1" SprintStatus.active,
              SprintRec.mk 2 1 "Sprint 2" SprintStatus.planned]
            (SprintRec.mk 2 1 "Sprint 2" SprintStatus.planned).project_id = some a ∧
      a.id ≠ 2 ∧
      startSprintEndpoint
          [SprintRec.mk 1 1 "Sprint 1" SprintStatus.active,
            SprintRec.mk 2 1 "Sprint 2" SprintStatus.planned] 2
        = ([SprintRec.mk 1 1 "Sprint 1" SprintStatus.active,
            SprintRec.mk 2 1 "Sprint 2" SprintStatus.planned],
            .error (.badRequest (activeConflictMsg a.name))) ∧
      updateSprintStatusEndpoint
          [SprintRec.mk 1 1 "Sprint 1" SprintStatus.active,
            SprintRec.mk 2 1 "Sprint 2" SprintStatus.planned] 2 SprintStatus.active
        = ([SprintRec.mk 1 1 "Sprint 1" SprintStatus.active,
            SprintRec.mk 2 1 "Sprint 2" SprintStatus.planned],
            .error (.badRequest (activeConflictMsg a.name)))) :=
  ⟨by decide,
    single_active_sprint_guard
      [SprintRec.mk 1 1 "Sprint 1" SprintStatus.active,
        SprintRec.mk 2 1 "Sprint 2" SprintStatus.planned] 2
      (SprintRec.mk 2 1 "Sprint 2" SprintStatus.planned)
      (SprintRec.mk 1 1 "Sprint 1" SprintStatus.active)
      (by decide) (by decide) (by decide) (by decide) (by decide)⟩

/-! ## Deployment state machine (`app/api/v1/deployments.py`,
`app/crud/deployment.py`, `app/crud/base.py`) -/

/-- `DeploymentStatus` enum (`app/models/deployment.py`). -/
inductive DeploymentStatus where
  | pending
  | in_progress
  | success
  | failed
  | rolled_back
deriving DecidableEq, Repr

/-- `DeploymentType` enum. -/
inductive DeploymentType where
  | manual
  | automatic
  | rollback
deriving DecidableEq, Repr

/-- The string rendering of a status member used when it is interpolated
into the bad-request f-string. -/
def statusValue : DeploymentStatus → String
  | .pending => "pending"
  | .in_progress => "in_progress"
  | .success => "success"
  | .failed => "failed"
  | .rolled_back => "rolled_back"

/-- A row of the `deployments` table.  Timestamps are opaque ticks. -/
structure DeploymentRec where
  id : Nat
  service_id : Nat
  deployed_by : Nat
  version : String
  commit_hash : Option String
  branch : Option String
  tag : Option String
  type : DeploymentType
  status : DeploymentStatus
  started_at : Option Nat
  completed_at : Option Nat
  environment : String
  rollback_from_id : Option Nat
  notes : Option String
  error_message : Option String
  log_url : Option String
deriving DecidableEq, Repr

/-- The field bundle a new deployment row is built from (everything but
the autoincremented id). -/
structure DeploymentFields where
  service_id : Nat
  deployed_by : Nat
  version : String
  commit_hash : Option String
  branch : Option String
  tag : Option String
  type : DeploymentType
  status : DeploymentStatus
  started_at : Option Nat
  completed_at : Option Nat
  environment : String
  rollback_from_id : Option Nat
  notes : Option String
  error_message : Option String
  log_url : Option String
deriving DecidableEq, Repr

/-- The deployments table plus the autoincrement counter. -/
structure DeployDB where
  rows : List DeploymentRec
  next_id : Nat
deriving DecidableEq, Repr

/-- `CRUDBase.get` for deployments. -/
def getDeployment (db : DeployDB) (did : Nat) : Option DeploymentRec :=
  db.rows.find? fun d => d.id == did

/-- The `obj_in` argument of `CRUDBase.create`: a Pydantic schema
(which has `model_dump()`) or a plain `dict` (which does not). -/
inductive CreateObj where
  | schemaObj (fields : DeploymentFields)
  | dictObj (fields : DeploymentFields)
deriving DecidableEq, Repr

/-- Build the persisted row from the dumped fields and a fresh id. -/
def mkDeploymentRow (did : Nat) (f : DeploymentFields) : DeploymentRec :=
  DeploymentRec.mk did f.service_id f.deployed_by f.version f.commit_hash f.branch
    f.tag f.type f.status f.started_at f.completed_at f.environment
    f.rollback_from_id f.notes f.error_message f.log_url

/-- The Python exception text raised by `obj_in.model_dump()` when
`obj_in` is a plain dict. -/
def dictModelDumpError : String :=
  "AttributeError: dict object has no attribute model_dump"

/-- `CRUDBase.create(db, obj_in)`: calls `obj_in.model_dump()` —
an unhandled `AttributeError` when `obj_in` is a plain `dict` — then
constructs, adds and commits the new row. -/
def crudDeploymentCreate (db : DeployDB) (objIn : CreateObj) :
    DeployDB × Except ApiError DeploymentRec :=
  match objIn with
  | .dictObj _ => (db, .error (.attributeError dictModelDumpError))
  | .schemaObj f =>
    let row := mkDeploymentRow db.next_id f
    (DeployDB.mk (db.rows ++ [row]) (db.next_id + 1), .ok row)

/-- Fixed prefix of the rollback guard message. -/
def rollbackMsgPre (did : Nat) : String :=
  "Cannot rollback to deployment " ++ toString did ++ " with status "

/-- Fixed suffix of the rollback guard message. -/
def rollbackMsgPost : String :=
  ". Only successful deployments can be used as rollback targets."

/-- The full bad-request message of the rollback guard; it interpolates
the target's actual status. -/
def rollbackErrMsg (did : Nat) (st : DeploymentStatus) : String :=
  rollbackMsgPre did ++ statusValue st ++ rollbackMsgPost

/-- `notes or f"Rollback to deployment {id} (version {v})"`: Python `or`
falls back on `None` and on the empty string. -/
def pyOrStr (o : Option String) (dflt : String) : String :=
  match o with
  | some s => if s == "" then dflt else s
  | none => dflt

/-- The auto-generated rollback notes. -/
def autoRollbackNotes (did : Nat) (version : String) : String :=
  "Rollback to deployment " ++ toString did ++ " (version " ++ version ++ ")"

/-- The `rollback_data` dict built by the handler (lines 271-284). -/
def rollbackPayload (target : DeploymentRec) (did userId now : Nat)
    (notes : Option String) : DeploymentFields :=
  DeploymentFields.mk target.service_id userId target.version target.commit_hash
    target.branch target.tag DeploymentType.rollback DeploymentStatus.pending
    (some now) none target.environment (some did)
    (some (pyOrStr notes (autoRollbackNotes did target.version))) none none

/-- `POST /deployments/{id}/rollback` (`rollback_deployment` handler):
404 when the target is absent; bad-request naming the target's status
when it is not `success`; otherwise hands the `rollback_data` dict to
`CRUDBase.create`. -/
def rollbackEndpoint (db : DeployDB) (did : Nat) (notes : Option String)
    (userId now : Nat) : DeployDB × Except ApiError DeploymentRec :=
  match getDeployment db did with
  | none => (db, .error (.notFound ("Deployment " ++ toString did ++ " not found")))
  | some target =>
    if target.status ≠ DeploymentStatus.success then
      (db, .error (.badRequest (rollbackErrMsg did target.status)))
    else
      crudDeploymentCreate db (.dictObj (rollbackPayload target did userId now notes))

lemma statusValue_inj (s1 s2 : DeploymentStatus)
    (h : statusValue s1 = statusValue s2) : s1 = s2 := by
  cases s1 <;> cases s2 <;> first | rfl | exact absurd h (by decide)

lemma rollbackErrMsg_inj (did : Nat) (s1 s2 : DeploymentStatus)
    (h : rollbackErrMsg did s1 = rollbackErrMsg did s2) : s1 = s2 := by
  apply statusValue_inj
  have hd := congrArg String.data h
  simp only [rollbackErrMsg, String.data_append] at hd
  rw [List.append_assoc, List.append_assoc] at hd
  exact String.ext (List.append_cancel_right (List.append_cancel_left hd))

/-- C2: rolling back to a deployment whose status is not `success`
fails with a bad-request whose message carries the target's actual
status (the message determines the status uniquely), and the deployment
table — rows and autoincrement counter alike — is left unchanged. -/
theorem rollback_guard_non_success (db : DeployDB) (did userId now : Nat)
    (notes : Option String) (d : DeploymentRec)
    (hget : getDeployment db did = some d)
    (hst : d.status ≠ DeploymentStatus.success) :
    rollbackEndpoint db did notes userId now
        = (db, .error (.badRequest (rollbackErrMsg did d.status))) ∧
    (∀ s, rollbackErrMsg did s = rollbackErrMsg did d.status → s = d.status) := by
  constructor
  · simp only [rollbackEndpoint, hget, if_pos hst]
  · intro s hmsg
    exact rollbackErrMsg_inj did s d.status hmsg

/-- Witness for C2 at a single `failed` deployment. -/
theorem rollback_guard_non_success_witness :
    (getDeployment
        (DeployDB.mk
          [DeploymentRec.mk 1 4 9 "1.0.0" (some "abc123") (some "main") none
            DeploymentType.manual DeploymentStatus.failed (some 5) (some 6)
            "production" none none (some "boom") none] 2) 1
      = some (DeploymentRec.mk 1 4 9 "1.0.0" (some "abc123") (some "main") none
          DeploymentType.manual DeploymentStatus.failed (some 5) (some 6)
          "production" none none (some "boom") none)) ∧
    rollbackEndpoint
        (DeployDB.mk
          [DeploymentRec.mk 1 4 9 "1.0.0" (some "abc123") (some "main") none
            DeploymentType.manual DeploymentStatus.failed (some 5) (some 6)
            "production" none none (some "boom") none] 2) 1 none 7 10
      = ((DeployDB.mk
          [DeploymentRec.mk 1 4 9 "1.0.0" (some "abc123") (some "main") none
            DeploymentType.manual DeploymentStatus.failed (some 5) (some 6)
            "production" none none (some "boom") none] 2),
          .error (.badRequest (rollbackErrMsg 1 DeploymentStatus.failed))) :=
  ⟨by decide,
    (rollback_guard_non_success
        (DeployDB.mk
          [DeploymentRec.mk 1 4 9 "1.0.0" (some "abc123") (some "main") none
            DeploymentType.manual DeploymentStatus.failed (some 5) (some 6)
            "production" none none (some "boom") none] 2) 1 7 10 none
        (DeploymentRec.mk 1 4 9 "1.0.0" (some "abc123") (some "main") none
          DeploymentType.manual DeploymentStatus.failed (some 5) (some 6)
          "production" none none (some "boom") none)
        (by decide) (by decide)).1⟩

/-- C3 (divergence): rolling back to a deployment whose status *is*
`success` does not create the rollback row the handler's docstring and
the test suite promise: `rollback_data` is a plain `dict`, so
`CRUDBase.create` crashes on `obj_in.model_dump()` with an
`AttributeError` before anything is persisted; the table is unchanged
and no row is created. -/
theorem rollback_success_raises_attribute_error (db : DeployDB)
    (did userId now : Nat) (notes : Option String) (d : DeploymentRec)
    (hget : getDeployment db did = some d)
    (hst : d.status = DeploymentStatus.success) :
    rollbackEndpoint db did notes userId now
      = (db, .error (.attributeError dictModelDumpError)) := by
  simp only [rollbackEndpoint, hget, hst]
  rw [if_neg (by simp)]
  rfl

/-- Witness for C3 at a single `success` deployment. -/
theorem rollback_success_raises_attribute_error_witness :
    (getDeployment
        (DeployDB.mk
          [DeploymentRec.mk 1 4 9 "1.0.0" (some "abc123") (some "main") none
            DeploymentType.manual DeploymentStatus.success (some 5) (some 6)
            "production" none none none none] 2) 1
      = some (DeploymentRec.mk 1 4 9 "1.0.0" (some "abc123") (some "main") none
          DeploymentType.manual DeploymentStatus.success (some 5) (some 6)
          "production" none none none none)) ∧
    rollbackEndpoint
        (DeployDB.mk
          [DeploymentRec.mk 1 4 9 "1.0.0" (some "abc123") (some "main") none
            DeploymentType.manual DeploymentStatus.success (some 5) (some 6)
            "production" none none none none] 2) 1 none 7 10
      = ((DeployDB.mk
          [DeploymentRec.mk 1 4 9 "1.0.0" (some "abc123") (some "main") none
            DeploymentType.manual DeploymentStatus.success (some 5) (some 6)
            "production" none none none none] 2),
          .error (.attributeError dictModelDumpError)) :=
  ⟨by decide,
    rollback_success_raises_attribute_error
      (DeployDB.mk
        [DeploymentRec.mk 1 4 9 "1.0.0" (some "abc123") (some "main") none
          DeploymentType.manual DeploymentStatus.success (some 5) (some 6)
          "production" none none none none] 2) 1 7 10 none
      (DeploymentRec.mk 1 4 9 "1.0.0" (some "abc123") (some "main") none
        DeploymentType.manual DeploymentStatus.success (some 5) (some 6)
        "production" none none none none)
      (by decide) (by decide)⟩

/-! ## Issue key generation (`app/api/v1/issues.py`) -/

/-- A row of the `projects` table (the fields key generation reads). -/
structure ProjectRec where
  id : Nat
  key : String
deriving DecidableEq, Repr

/-- A row of the `issues` table (the fields key generation reads). -/
structure IssueRec where
  id : Nat
  project_id : Nat
  key : String
deriving DecidableEq, Repr

/-- Projects and issues plus the issue autoincrement counter. -/
structure IssuesDB where
  projects : List ProjectRec
  issues : List IssueRec
  next_issue_id : Nat
deriving DecidableEq, Repr

/-- `crud_project.get`. -/
def getProject (db : IssuesDB) (pid : Nat) : Option ProjectRec :=
  db.projects.find? fun p => p.id == pid

/-- Python `key.split("-")` on the underlying characters: split on every
dash, keeping empty segments, never returning an empty list. -/
def splitDashChars : List Char → List (List Char)
  | [] => [[]]
  | x :: xs =>
    match splitDashChars xs with
    | [] => [[]]
    | cur :: rest => if x = '-' then [] :: cur :: rest else (x :: cur) :: rest

/-- `key.split("-")[-1]` (a Python split result is never empty, so the
default of `getLastD` is unreachable). -/
def lastDashSegment (s : String) : String :=
  String.mk ((splitDashChars s.data).getLastD [])

/-- Decimal value of a digit run. -/
def digitsVal (ds : List Char) : Nat :=
  ds.foldl (fun n c => n * 10 + (c.toNat - '0'.toNat)) 0

/-- Python `int(s)`: strip surrounding whitespace, allow one optional
sign, then require at least one decimal digit; `None` models the
`ValueError` branch. -/
def pyInt (s : String) : Option Int :=
  let t := ((s.data.dropWhile Char.isWhitespace).reverse.dropWhile
    Char.isWhitespace).reverse
  match t with
  | '-' :: ds =>
    if ds ≠ [] ∧ ds.all Char.isDigit then some (-(digitsVal ds : Int)) else none
  | '+' :: ds =>
    if ds ≠ [] ∧ ds.all Char.isDigit then some (digitsVal ds : Int) else none
  | ds =>
    if ds ≠ [] ∧ ds.all Char.isDigit then some (digitsVal ds : Int) else none

/-- One step of `order_by(Issue.id.desc()).first()`: keep the row with
the larger id (the strict comparison keeps the earlier row on ties,
which cannot occur on a primary key). -/
def pickNewer (best : Option IssueRec) (i : IssueRec) : Option IssueRec :=
  match best with
  | none => some i
  | some b => if b.id < i.id then some i else some b

/-- `db.query(Issue).filter(project_id).order_by(Issue.id.desc()).first()`:
the project's issue with the highest internal id. -/
def lastIssueByIdDesc (issues : List IssueRec) (pid : Nat) : Option IssueRec :=
  (issues.filter fun i => i.project_id == pid).foldl pickNewer none

/-- `db.query(func.count(Issue.id)).filter(project_id).scalar()`. -/
def countIssues (issues : List IssueRec) (pid : Nat) : Nat :=
  (issues.filter fun i => i.project_id == pid).length

/-- The `next_number` computation of `generate_issue_key`:
`if last_issue and last_issue.key:` parse-and-increment with a
count-plus-one fallback on `ValueError`; otherwise (no issue, or a
falsy empty key) the number is 1. -/
def nextIssueNumber (issues : List IssueRec) (pid : Nat) : Int :=
  match lastIssueByIdDesc issues pid with
  | some li =>
    if li.key ≠ "" then
      match pyInt (lastDashSegment li.key) with
      | some n => n + 1
      | none => (countIssues issues pid : Int) + 1
    else 1
  | none => 1

/-- `generate_issue_key(db, project_id)`: 404 for a missing project,
else `f"{project.key}-{next_number}"`. -/
def generateIssueKey (db : IssuesDB) (pid : Nat) : Except ApiError String :=
  match getProject db pid with
  | none => .error (.notFound ("Project " ++ toString pid ++ " not found"))
  | some project =>
    .ok (project.key ++ "-" ++ toString (nextIssueNumber db.issues pid))

/-- `POST /issues` (`create_issue` handler), restricted to the fields
key generation reads: check the project, generate the key, insert the
row with the next id. -/
def createIssueEndpoint (db : IssuesDB) (pid : Nat) :
    IssuesDB × Except ApiError IssueRec :=
  match getProject db pid with
  | none => (db, .error (.notFound ("Project " ++ toString pid ++ " not found")))
  | some _ =>
    match generateIssueKey db pid with
    | .error e => (db, .error e)
    | .ok key =>
      let row := IssueRec.mk db.next_issue_id pid key
      (IssuesDB.mk db.projects (db.issues ++ [row]) (db.next_issue_id + 1), .ok row)

/-- C5 (counterexample): the claim predicts that a present-but-missing
(empty) key falls back to `count(project issues) + 1`.  With one issue
whose key is empty, the code's falsiness test `if last_issue and
last_issue.key:` instead lands in the first-issue branch and yields
number 1, not `count + 1 = 2`. -/
theorem generate_issue_key_empty_key_counterexample :
    generateIssueKey
        (IssuesDB.mk [ProjectRec.mk 1 "ABC"] [IssueRec.mk 5 1 ""] 6) 1
      = .ok ("ABC-" ++ toString (1 : Int)) ∧
    ((countIssues [IssueRec.mk 5 1 ""] 1 : Int) + 1 = 2) ∧
    generateIssueKey
        (IssuesDB.mk [ProjectRec.mk 1 "ABC"] [IssueRec.mk 5 1 ""] 6) 1
      ≠ .ok ("ABC-" ++ toString ((countIssues [IssueRec.mk 5 1 ""] 1 : Int) + 1)) := by
  refine ⟨by decide, by decide, by decide⟩

lemma pickNewer_spec (acc : Option IssueRec) (x : IssueRec) :
    ∃ c, pickNewer acc x = some c ∧ x.id ≤ c.id ∧
      (∀ b, acc = some b → b.id ≤ c.id) ∧ (c = x ∨ acc = some c) := by
  match acc with
  | none =>
    exact ⟨x, rfl, le_refl _, fun b hb => Option.noConfusion hb, Or.inl rfl⟩
  | some b =>
    by_cases h : b.id < x.id
    · refine ⟨x, by simp [pickNewer, h], le_refl _, ?_, Or.inl rfl⟩
      intro b' hb'
      have : b' = b := (Option.some.inj hb').symm
      subst this
      omega
    · refine ⟨b, by simp [pickNewer, h], by omega, ?_, Or.inr rfl⟩
      intro b' hb'
      have : b' = b := (Option.some.inj hb').symm
      subst this
      exact le_refl _

lemma foldl_pickNewer_spec (L : List IssueRec) :
    ∀ (acc : Option IssueRec) (m : IssueRec), L.foldl pickNewer acc = some m →
      (acc = some m ∨ m ∈ L) ∧ (∀ b, acc = some b → b.id ≤ m.id) ∧
        (∀ j ∈ L, j.id ≤ m.id) := by
  induction L with
  | nil =>
    intro acc m h
    simp only [List.foldl_nil] at h
    refine ⟨Or.inl h, ?_, fun j hj => absurd hj (List.not_mem_nil j)⟩
    intro b hb
    rw [hb] at h
    rw [Option.some.inj h]
  | cons x xs ih =>
    intro acc m h
    simp only [List.foldl_cons] at h
    obtain ⟨c, hc, hxc, haccc, hcx⟩ := pickNewer_spec acc x
    rw [hc] at h
    obtain ⟨hmem, haccb, hall⟩ := ih (some c) m h
    have hcm : c.id ≤ m.id := haccb c rfl
    refine ⟨?_, ?_, ?_⟩
    · rcases hmem with hcm2 | hmxs
      · have hce : c = m := Option.some.inj hcm2
        subst hce
        rcases hcx with rfl | hacc
        · exact Or.inr (List.mem_cons_self _ _)
        · exact Or.inl hacc
      · exact Or.inr (List.mem_cons_of_mem _ hmxs)
    · intro b hb
      exact le_trans (haccc b hb) hcm
    · intro j hj
      rcases List.mem_cons.mp hj with rfl | hjxs
      · exact le_trans hxc hcm
      · exact hall j hjxs

lemma lastIssue_spec (issues : List IssueRec) (pid : Nat) (li : IssueRec)
    (h : lastIssueByIdDesc issues pid = some li) :
    li ∈ issues ∧ li.project_id = pid ∧
      ∀ j ∈ issues, j.project_id = pid → j.id ≤ li.id := by
  unfold lastIssueByIdDesc at h
  obtain ⟨hmem, _, hall⟩ := foldl_pickNewer_spec _ _ _ h
  rcases hmem with habs | hmem
  · simp at habs
  · have hmf := List.mem_filter.mp hmem
    refine ⟨hmf.1, eq_of_beq hmf.2, ?_⟩
    intro j hj hjp
    exact hall j (List.mem_filter.mpr ⟨hj, by simp [hjp]⟩)

/-- C5 (amended): the issue whose trailing number is incremented is the
project's issue with the highest internal id (not the highest parsed key
number); a successful parse of its trailing segment yields that number
plus one; a failed parse of a *non-empty* key falls back to
`count(project issues) + 1`; when the project has no issues — or the
selected issue's key is empty, which Python's falsiness test routes to
the same branch — the number is 1.  Creating three issues sequentially
in a fresh project with key `ABC` yields `ABC-1`, `ABC-2`, `ABC-3`, and
internal-id order (not numeric key order) decides which issue is
incremented. -/
theorem generate_issue_key_amended (db : IssuesDB) (pid : Nat) (proj : ProjectRec)
    (hproj : getProject db pid = some proj) :
    (lastIssueByIdDesc db.issues pid = none →
      generateIssueKey db pid = .ok (proj.key ++ "-" ++ toString (1 : Int))) ∧
    (∀ li, lastIssueByIdDesc db.issues pid = some li → li.key = "" →
      generateIssueKey db pid = .ok (proj.key ++ "-" ++ toString (1 : Int))) ∧
    (∀ li n, lastIssueByIdDesc db.issues pid = some li → li.key ≠ "" →
      pyInt (lastDashSegment li.key) = some n →
      generateIssueKey db pid = .ok (proj.key ++ "-" ++ toString (n + 1))) ∧
    (∀ li, lastIssueByIdDesc db.issues pid = some li → li.key ≠ "" →
      pyInt (lastDashSegment li.key) = none →
      generateIssueKey db pid
        = .ok (proj.key ++ "-" ++ toString ((countIssues db.issues pid : Int) + 1))) ∧
    (∀ li, lastIssueByIdDesc db.issues pid = some li →
      li ∈ db.issues ∧ li.project_id = pid ∧
        ∀ j ∈ db.issues, j.project_id = pid → j.id ≤ li.id) ∧
    ((createIssueEndpoint (IssuesDB.mk [ProjectRec.mk 1 "ABC"] [] 1) 1).2
        = .ok (IssueRec.mk 1 1 "ABC-1") ∧
      (createIssueEndpoint
          (createIssueEndpoint (IssuesDB.mk [ProjectRec.mk 1 "ABC"] [] 1) 1).1 1).2
        = .ok (IssueRec.mk 2 1 "ABC-2") ∧
      (createIssueEndpoint
          (createIssueEndpoint
            (createIssueEndpoint (IssuesDB.mk [ProjectRec.mk 1 "ABC"] [] 1) 1).1 1).1
          1).2
        = .ok (IssueRec.mk 3 1 "ABC-3")) ∧
    generateIssueKey
        (IssuesDB.mk [ProjectRec.mk 1 "ABC"]
          [IssueRec.mk 1 1 "ABC-7", IssueRec.mk 2 1 "ABC-3"] 3) 1
      = .ok "ABC-4" := by
  refine ⟨?_, ?_, ?_, ?_, ?_, ⟨by decide, by decide, by decide⟩, by decide⟩
  · intro h
    simp only [generateIssueKey, hproj, nextIssueNumber, h]
  · intro li h hk
    simp only [generateIssueKey, hproj, nextIssueNumber, h, hk]
    simp
  · intro li n h hk hp
    simp only [generateIssueKey, hproj, nextIssueNumber, h, hp, if_pos hk]
  · intro li h hk hp
    simp only [generateIssueKey, hproj, nextIssueNumber, h, hp, if_pos hk]
  · intro li h
    exact lastIssue_spec db.issues pid li h

/-- Witness for C5's amended theorem: a project whose only issue has the
malformed key `weird` falls back to `count + 1 = 2`. -/
theorem generate_issue_key_amended_witness :
    (getProject (IssuesDB.mk [ProjectRec.mk 1 "ABC"] [IssueRec.mk 3 1 "weird"] 4) 1
        = some (ProjectRec.mk 1 "ABC")) ∧
    (lastIssueByIdDesc [IssueRec.mk 3 1 "weird"] 1 = some (IssueRec.mk 3 1 "weird")) ∧
    ((IssueRec.mk 3 1 "weird").key ≠ "") ∧
    (pyInt (lastDashSegment (IssueRec.mk 3 1 "weird").key) = none) ∧
    generateIssueKey (IssuesDB.mk [ProjectRec.mk 1 "ABC"] [IssueRec.mk 3 1 "weird"] 4) 1
      = .ok ("ABC" ++ "-"
          ++ toString ((countIssues [IssueRec.mk 3 1 "weird"] 1 : Int) + 1)) :=
  ⟨by decide, by decide, by decide, by decide,
    (generate_issue_key_amended
        (IssuesDB.mk [ProjectRec.mk 1 "ABC"] [IssueRec.mk 3 1 "weird"] 4) 1
        (ProjectRec.mk 1 "ABC") (by decide)).2.2.2.1
      (IssueRec.mk 3 1 "weird") (by decide) (by decide) (by decide)⟩

/-! ## Team membership (`app/api/v1/teams.py`, `app/crud/team.py`) -/

/-- `TeamRole` enum (`app/models/team.py`). -/
inductive TeamRole where
  | owner
  | admin
  | member
  | viewer
deriving DecidableEq, Repr

/-- A row of the `teams` table (the fields member removal reads). -/
structure TeamRec where
  id : Nat
  name : String
deriving DecidableEq, Repr

/-- A row of the `team_members` join table. -/
structure TeamMemberRec where
  id : Nat
  team_id : Nat
  user_id : Nat
  role : TeamRole
deriving DecidableEq, Repr

/-- Teams and memberships. -/
structure TeamsDB where
  teams : List TeamRec
  members : List TeamMemberRec
deriving DecidableEq, Repr

/-- `crud_team.get`. -/
def getTeam (db : TeamsDB) (tid : Nat) : Option TeamRec :=
  db.teams.find? fun t => t.id == tid

/-- The membership row `filter(team_id, user_id).first()`. -/
def findMember (db : TeamsDB) (tid uid : Nat) : Option TeamMemberRec :=
  db.members.find? fun m => m.team_id == tid && m.user_id == uid

/-- `CRUDTeam.is_member`. -/
def is_member (db : TeamsDB) (tid uid : Nat) : Bool :=
  (findMember db tid uid).isSome

/-- `CRUDTeam.has_role`: the first matching membership row carries the
given role. -/
def has_role (db : TeamsDB) (tid uid : Nat) (role : TeamRole) : Bool :=
  match findMember db tid uid with
  | some m => m.role == role
  | none => false

/-- `CRUDTeam.remove_member`: delete the fetched membership row. -/
def removeMember (db : TeamsDB) (tid uid : Nat) : TeamsDB :=
  TeamsDB.mk db.teams
    (db.members.eraseP fun m => m.team_id == tid && m.user_id == uid)

/-- `DELETE /teams/{team_id}/members/{user_id}` (`remove_team_member`
handler): 404 for a missing team; bad-request unless the caller is the
team's owner or an admin; 404 when the target is not a member;
bad-request `Cannot remove team owner` when the target holds the owner
role; else the membership row is removed. -/
def removeTeamMemberEndpoint (db : TeamsDB) (tid uid curUid : Nat) :
    TeamsDB × Except ApiError Unit :=
  match getTeam db tid with
  | none => (db, .error (.notFound ("Team " ++ toString tid ++ " not found")))
  | some _ =>
    if !(has_role db tid curUid TeamRole.owner)
        && !(has_role db tid curUid TeamRole.admin) then
      (db, .error (.badRequest "Only team owners or admins can remove members"))
    else if !(is_member db tid uid) then
      (db, .error (.notFound ("User " ++ toString uid
        ++ " is not a member of this team")))
    else if has_role db tid uid TeamRole.owner then
      (db, .error (.badRequest "Cannot remove team owner"))
    else
      (removeMember db tid uid, .ok ())

/-- C9: when the targeted user holds the owner role of an existing
team, member removal always fails with a bad-request — either the
permission error or `Cannot remove team owner` — and the membership
table is left unchanged, whoever the caller is. -/
theorem owner_cannot_be_removed (db : TeamsDB) (tid uid curUid : Nat)
    (team : TeamRec) (hteam : getTeam db tid = some team)
    (howner : has_role db tid uid TeamRole.owner = true) :
    (removeTeamMemberEndpoint db tid uid curUid).1 = db ∧
    ∃ msg, (removeTeamMemberEndpoint db tid uid curUid).2
        = .error (.badRequest msg) := by
  have hmem : is_member db tid uid = true := by
    unfold has_role at howner
    unfold is_member
    cases hfind : findMember db tid uid with
    | none => rw [hfind] at howner; exact absurd howner (by simp)
    | some m => simp [hfind]
  simp only [removeTeamMemberEndpoint, hteam]
  by_cases hperm : (!(has_role db tid curUid TeamRole.owner)
      && !(has_role db tid curUid TeamRole.admin)) = true
  · rw [if_pos hperm]
    exact ⟨rfl, "Only team owners or admins can remove members", rfl⟩
  · rw [if_neg hperm, if_neg (by simp [hmem]), if_pos howner]
    exact ⟨rfl, "Cannot remove team owner", rfl⟩

/-- Witness for C9: user 5 owns team 1; an admin caller (user 8) cannot
remove them. -/
theorem owner_cannot_be_removed_witness :
    (getTeam
        (TeamsDB.mk [TeamRec.mk 1 "Backend"]
          [TeamMemberRec.mk 1 1 5 TeamRole.owner,
            TeamMemberRec.mk 2 1 8 TeamRole.admin]) 1
      = some (TeamRec.mk 1 "Backend")) ∧
    (has_role
        (TeamsDB.mk [TeamRec.mk 1 "Backend"]
          [TeamMemberRec.mk 1 1 5 TeamRole.owner,
            TeamMemberRec.mk 2 1 8 TeamRole.admin]) 1 5 TeamRole.owner = true) ∧
    ((removeTeamMemberEndpoint
          (TeamsDB.mk [TeamRec.mk 1 "Backend"]
            [TeamMemberRec.mk 1 1 5 TeamRole.owner,
              TeamMemberRec.mk 2 1 8 TeamRole.admin]) 1 5 8).1
        = TeamsDB.mk [TeamRec.mk 1 "Backend"]
            [TeamMemberRec.mk 1 1 5 TeamRole.owner,
              TeamMemberRec.mk 2 1 8 TeamRole.admin] ∧
      ∃ msg, (removeTeamMemberEndpoint
          (TeamsDB.mk [TeamRec.mk 1 "Backend"]
            [TeamMemberRec.mk 1 1 5 TeamRole.owner,
              TeamMemberRec.mk 2 1 8 TeamRole.admin]) 1 5 8).2
        = .error (.badRequest msg)) :=
  ⟨by decide, by decide,
    owner_cannot_be_removed
      (TeamsDB.mk [TeamRec.mk 1 "Backend"]
        [TeamMemberRec.mk 1 1 5 TeamRole.owner,
          TeamMemberRec.mk 2 1 8 TeamRole.admin]) 1 5 8
      (TeamRec.mk 1 "Backend") (by decide) (by decide)⟩

end DevFlow
